import Mathlib

/-!
Verification of the kubejob repository's job lifecycle watcher and log
aggregator, as implemented in `pkg/job/job.go` (library) and `main.go` (CLI).

Modelling conventions:
* Go `core.PodPhase` is a string type whose zero value is the empty string;
  phases are modelled as `String` with the constants below.
* Go channels used as one-shot race points (`select` over `logsDone`,
  `time.After`, `ctx.Done()`; and the top-level race in `RunJob`) are modelled
  by an explicit parameter naming the branch that wins the race.
* `ctx.Err()` sampled inside the watch loop is modelled as a boolean flag on
  each delivered event ("was the context already cancelled when this event was
  handled"), and its message as an explicit string parameter.
* The `sync.WaitGroup` fan-in of `startLogStreaming` is modelled as a counter
  decremented once per completion signal; the order in which the spawned
  streamers complete is an arbitrary list of streamer indices.
* The side effects of `watchJob` (sends on the events channel, calls to
  `startLogStreaming`, `close(events)`, the final send on `resultChan`) are
  recorded as an explicit trace of `Action`s.
* `bytes.Buffer` contents in `labelSelector` are modelled as `List Char`;
  `buf.Truncate(buf.Len()-1)` is `List.dropLast` (the dropped byte is always
  the ASCII comma the loop just appended).
-/

namespace KubeJob

/-- Phase string constant `core.PodRunning`. -/
def podRunning : String := "Running"

/-- Phase string constant `core.PodSucceeded`. -/
def podSucceeded : String := "Succeeded"

/-- Phase string constant `core.PodFailed`. -/
def podFailed : String := "Failed"

/-- Phase string constant `core.PodPending`. -/
def podPending : String := "Pending"

/-- One event delivered on `watch.ResultChan()` in `watchJob`: the pod's name,
its current phase, and whether `ctx.Err() != nil` held at the moment the loop
body handled this event. -/
structure PodEvent where
  name : String
  phase : String
  ctxDone : Bool
deriving DecidableEq

/-- The payloads sent on the events channel (Go `Event` is an interface
holding either a pod status, a `LogLine`, or an `error`). -/
inductive Event where
  | status (pod : String) (phase : String)
  | logLine (container : String) (line : String)
  | errorEvent (msg : String)
deriving DecidableEq

/-- How the read loop of `streamLogsForContainer` ends: a final
`ReadString` call returning `io.EOF` together with the last (possibly empty)
chunk read, or a non-EOF read error. -/
inductive ReadEnd where
  | eof (lastChunk : String)
  | readFail (msg : String)
deriving DecidableEq

/-- The externally-determined behaviour of one container's log stream:
whether opening the stream failed, the complete lines successfully read
(each `ReadString` returning a nil error), and how reading ended. -/
structure StreamInput where
  openErr : Option String
  lines : List String
  ending : ReadEnd
deriving DecidableEq

/-- Model of `streamLogsForContainer` (`pkg/job/job.go`): returns the events
it sends on the events channel, paired with the number of `wg.Done()` calls
performed (the `defer wg.Done()` runs on every return path). On open failure
an error event is emitted; on a read error the error event is emitted and the
partial line is dropped; on EOF the final chunk is still emitted as a
`LogLine` before returning. -/
def streamLogsForContainer (container : String) (inp : StreamInput) :
    List Event × Nat :=
  match inp.openErr with
  | some e => ([Event.errorEvent ("streamLogsForContainer: " ++ e)], 1)
  | none =>
    let lineEvents := inp.lines.map (fun l => Event.logLine container l)
    match inp.ending with
    | ReadEnd.readFail e =>
      (lineEvents ++ [Event.errorEvent ("streamLogsForContainer: " ++ e)], 1)
    | ReadEnd.eof lastChunk =>
      (lineEvents ++ [Event.logLine container lastChunk], 1)

/-- The `sync.WaitGroup` of `startLogStreaming`, reduced to its counter. -/
structure WaitGroup where
  counter : Nat
deriving DecidableEq

/-- One `wg.Done()` call. -/
def wgDone (wg : WaitGroup) : WaitGroup :=
  ⟨wg.counter - 1⟩

/-- State of the WaitGroup after the completion signals in `sigs` (an
arbitrary ordering of streamer indices) have been processed, starting from
`wg.Add(n)`. -/
def runSignals (n : Nat) (sigs : List (Fin n)) : WaitGroup :=
  sigs.foldl (fun wg _ => wgDone wg) ⟨n⟩

/-- Whether `wg.Wait()` is unblocked, i.e. the goroutine
`go func() { wg.Wait(); close(done) }()` can fire the drain signal. -/
def drainFires (wg : WaitGroup) : Bool :=
  decide (wg.counter = 0)

/-- Number of points along the completion schedule (including before the
first signal and after the last) at which the drain signal can fire. -/
def drainFirings (n : Nat) (sigs : List (Fin n)) : Nat :=
  (List.range (sigs.length + 1)).countP
    (fun k => drainFires (runSignals n (sigs.take k)))

/-- The container argument passed to each spawned streamer by the library's
`startLogStreaming` (`pkg/job/job.go` lines 147-158): one streamer per
declared container, each given that container's name — with no special case
for a single-container pod. -/
def startLogStreamingLabels (containers : List String) : List String :=
  containers

/-- The container argument passed to each spawned streamer by the CLI's
`startLogStreaming` (`main.go` lines 189-205): a single-container pod gets one
streamer with the empty container name, otherwise one streamer per container
with its name. -/
def cliStartLogStreamingLabels (containers : List String) : List String :=
  if containers.length = 1 then [""] else containers

/-- The per-line prefix computed by the CLI's `streamLogsForContainer`
(`main.go` lines 230-237): `container + ": "` when the container name is
non-empty, otherwise the empty prefix. -/
def cliPrefixText (container : String) : String :=
  if container.length > 0 then container ++ ": " else ""

/-- One line as written to the CLI's shared stdout by the prefixing writer. -/
def cliOutputLine (container : String) (line : String) : String :=
  cliPrefixText container ++ line

/-- Mutable state of the `watchJob` event loop: `lastPhase` (zero value is the
empty string), the `oncePerPod` marker map (the set of pod names mapped to
`true`), the sequence of `startLogStreaming` invocations, and the `success`
flag. -/
structure WatchState where
  lastPhase : String
  oncePerPod : List String
  activations : List String
  success : Bool
deriving DecidableEq

/-- The state at the top of `watchJob`: `var lastPhase core.PodPhase` (empty
string), empty `oncePerPod` map, no streaming started, `var success bool`
(false). -/
def initialWatchState : WatchState :=
  ⟨"", [], [], false⟩

/-- Observable side effects of `watchJob`, in program order. -/
inductive Action where
  | emitStatus (pod : String) (phase : String)
  | activate (pod : String)
  | closeEvents
  | sendResult (success : Bool) (err : Option String)
deriving DecidableEq

/-- Model of the `ensureLogStreaming` closure (`pkg/job/job.go` lines 81-91):
a no-op when no events channel is attached or when streaming was already
started for this pod name; otherwise marks the pod and invokes
`startLogStreaming`. Returns the updated state and the emitted actions. -/
def ensureLogStreaming (eventsPresent : Bool) (podName : String)
    (st : WatchState) : WatchState × List Action :=
  if eventsPresent = false then (st, [])
  else if podName ∈ st.oncePerPod then (st, [])
  else
    ({ st with
        oncePerPod := podName :: st.oncePerPod,
        activations := st.activations ++ [podName] },
      [Action.activate podName])

/-- How the `for event := range watch.ResultChan()` loop was left. -/
inductive LoopExit where
  | channelClosed
  | ctxDone
  | terminal
deriving DecidableEq

/-- Model of the event-consumption loop of `watchJob` (`pkg/job/job.go` lines
93-123): for each delivered event the pod status is forwarded when an events
channel is attached; then the loop exits if the context is done; an event
whose phase equals `lastPhase` is skipped; `Running` triggers the idempotent
streaming activation; `Succeeded`/`Failed` trigger it, set `success`, and jump
to the drain wait; any other phase only updates `lastPhase`. -/
def watchLoop (eventsPresent : Bool) :
    List PodEvent → WatchState → WatchState × LoopExit × List Action
  | [], st => (st, LoopExit.channelClosed, [])
  | ev :: rest, st =>
    let pre := if eventsPresent then [Action.emitStatus ev.name ev.phase] else []
    if ev.ctxDone then (st, LoopExit.ctxDone, pre)
    else if ev.phase = st.lastPhase then
      let r := watchLoop eventsPresent rest st
      (r.1, r.2.1, pre ++ r.2.2)
    else if ev.phase = podRunning then
      let e := ensureLogStreaming eventsPresent ev.name st
      let r := watchLoop eventsPresent rest { e.1 with lastPhase := ev.phase }
      (r.1, r.2.1, pre ++ e.2 ++ r.2.2)
    else if ev.phase = podSucceeded then
      let e := ensureLogStreaming eventsPresent ev.name st
      ({ e.1 with success := true }, LoopExit.terminal, pre ++ e.2)
    else if ev.phase = podFailed then
      let e := ensureLogStreaming eventsPresent ev.name st
      ({ e.1 with success := false }, LoopExit.terminal, pre ++ e.2)
    else
      let r := watchLoop eventsPresent rest { st with lastPhase := ev.phase }
      (r.1, r.2.1, pre ++ r.2.2)

/-- Which branch of the end-of-session `select` (`pkg/job/job.go` lines
128-134) wins the race: the drain signal `logsDone`, the 10-second
`time.After` timer, or `ctx.Done()`. -/
inductive DrainRace where
  | drained
  | timeout
  | cancelled
deriving DecidableEq

/-- The error assigned by the winning branch of the drain `select`. -/
def drainErr (w : DrainRace) (ctxErrMsg : String) : Option String :=
  match w with
  | DrainRace.drained => none
  | DrainRace.timeout => some "timeout waiting for end of logs"
  | DrainRace.cancelled => some ctxErrMsg

/-- Inputs determining one run of `watchJob`: the result of the
`Pods(...).Watch` call, the delivered pod events, whether an events channel
was attached, which branch wins the final drain race, and the message
`ctx.Err()` would report. -/
structure WatchInput where
  watchErr : Option String
  events : List PodEvent
  eventsPresent : Bool
  drainWinner : DrainRace
  ctxErrMsg : String
deriving DecidableEq

/-- Model of `watchJob` (`pkg/job/job.go` lines 62-143): on subscription-open
failure it sends `result{false, "unable to watch: ..."}` and returns at once
(note: without closing the events channel). Otherwise it runs the event loop,
resolves the drain race, closes the events channel when one is attached, and
sends the result. Returns the `result` value sent on `resultChan` paired with
the full action trace. -/
def watchJob (inp : WatchInput) : (Bool × Option String) × List Action :=
  match inp.watchErr with
  | some e =>
    ((false, some ("unable to watch: " ++ e)),
      [Action.sendResult false (some ("unable to watch: " ++ e))])
  | none =>
    let r := watchLoop inp.eventsPresent inp.events initialWatchState
    let err := drainErr inp.drainWinner inp.ctxErrMsg
    ((r.1.success, err),
      r.2.2 ++ (if inp.eventsPresent then [Action.closeEvents] else [])
        ++ [Action.sendResult r.1.success err])

/-- Pod names for which `startLogStreaming` was invoked, read off a trace. -/
def activationsIn (tr : List Action) : List String :=
  tr.filterMap (fun a =>
    match a with
    | Action.activate p => some p
    | _ => none)

/-- Number of `close(events)` calls in a trace. -/
def closeCount (tr : List Action) : Nat :=
  tr.countP (fun a =>
    match a with
    | Action.closeEvents => true
    | _ => false)

/-- The results sent on `resultChan`, read off a trace. -/
def resultsSent (tr : List Action) : List (Bool × Option String) :=
  tr.filterMap (fun a =>
    match a with
    | Action.sendResult s e => some (s, e)
    | _ => none)

/-- Which branch of the top-level `select` in `RunJob` (`pkg/job/job.go`
lines 50-55) wins: `ctx.Done()` or the arrival of the watcher's result. -/
inductive TopRace where
  | ctxDone
  | resultReady
deriving DecidableEq

/-- Model of `RunJob` (`pkg/job/job.go` lines 40-56) after job creation:
on creation failure it returns that error; otherwise it races the context
against the watcher's result and returns `(false, ctx.Err())` or the
watcher's `(success, err)` accordingly. -/
def runJob (createErr : Option String) (race : TopRace) (ctxErrMsg : String)
    (inp : WatchInput) : Bool × Option String :=
  match createErr with
  | some e => (false, some ("failed to create job: " ++ e))
  | none =>
    match race with
    | TopRace.ctxDone => (false, some ctxErrMsg)
    | TopRace.resultReady => (watchJob inp).1

/-- Model of `labelSelector` (`pkg/job/job.go` lines 198-207, identical in
`main.go`): append `k=v,` to a byte buffer for every map entry, then drop the
final byte when the buffer is non-empty. Buffers and strings are `List Char`;
the label map is a key-value list (Go map iteration order is arbitrary, so
every ordering is covered by quantifying over lists). -/
def labelSelector (labels : List (List Char × List Char)) : List Char :=
  let buf := labels.foldl
    (fun acc kv => acc ++ kv.1 ++ ['='] ++ kv.2 ++ [',']) []
  if buf = [] then buf else buf.dropLast

/-! Helper lemmas about the trace observers. -/

theorem activationsIn_nil : activationsIn [] = [] := rfl

theorem closeCount_nil : closeCount [] = 0 := rfl

theorem resultsSent_nil : resultsSent [] = [] := rfl

theorem activationsIn_append (l₁ l₂ : List Action) :
    activationsIn (l₁ ++ l₂) = activationsIn l₁ ++ activationsIn l₂ :=
  List.filterMap_append l₁ l₂ _

theorem closeCount_append (l₁ l₂ : List Action) :
    closeCount (l₁ ++ l₂) = closeCount l₁ + closeCount l₂ :=
  List.countP_append _ l₁ l₂

theorem resultsSent_append (l₁ l₂ : List Action) :
    resultsSent (l₁ ++ l₂) = resultsSent l₁ ++ resultsSent l₂ :=
  List.filterMap_append l₁ l₂ _

theorem activationsIn_status_ite (b : Bool) (p ph : String) :
    activationsIn (if b then [Action.emitStatus p ph] else []) = [] := by
  cases b <;> rfl

theorem closeCount_status_ite (b : Bool) (p ph : String) :
    closeCount (if b then [Action.emitStatus p ph] else []) = 0 := by
  cases b <;> rfl

theorem resultsSent_status_ite (b : Bool) (p ph : String) :
    resultsSent (if b then [Action.emitStatus p ph] else []) = [] := by
  cases b <;> rfl

/-! Helper lemmas about `ensureLogStreaming`. -/

theorem ensure_activations (b : Bool) (p : String) (st : WatchState) :
    (ensureLogStreaming b p st).1.activations
      = st.activations ++ activationsIn (ensureLogStreaming b p st).2 := by
  unfold ensureLogStreaming
  split
  · simp [activationsIn]
  · split <;> simp [activationsIn]

theorem ensure_success (b : Bool) (p : String) (st : WatchState) :
    (ensureLogStreaming b p st).1.success = st.success := by
  unfold ensureLogStreaming
  split
  · rfl
  · split <;> rfl

theorem ensure_lastPhase (b : Bool) (p : String) (st : WatchState) :
    (ensureLogStreaming b p st).1.lastPhase = st.lastPhase := by
  unfold ensureLogStreaming
  split
  · rfl
  · split <;> rfl

theorem ensure_closeCount (b : Bool) (p : String) (st : WatchState) :
    closeCount (ensureLogStreaming b p st).2 = 0 := by
  unfold ensureLogStreaming
  split
  · rfl
  · split <;> rfl

theorem ensure_resultsSent (b : Bool) (p : String) (st : WatchState) :
    resultsSent (ensureLogStreaming b p st).2 = [] := by
  unfold ensureLogStreaming
  split
  · rfl
  · split <;> rfl

theorem ensure_events_absent (p : String) (st : WatchState) :
    ensureLogStreaming false p st = (st, []) := rfl

theorem ensure_invariant (b : Bool) (p : String) (st : WatchState)
    (hnd : st.activations.Nodup)
    (hsub : ∀ a ∈ st.activations, a ∈ st.oncePerPod) :
    (ensureLogStreaming b p st).1.activations.Nodup ∧
      ∀ a ∈ (ensureLogStreaming b p st).1.activations,
        a ∈ (ensureLogStreaming b p st).1.oncePerPod := by
  unfold ensureLogStreaming
  split
  · exact ⟨hnd, hsub⟩
  · split
    · exact ⟨hnd, hsub⟩
    · rename_i hb hmem
      constructor
      · refine List.Nodup.append hnd (List.nodup_singleton p) ?_
        intro a ha hap
        rcases List.mem_singleton.mp hap with rfl
        exact hmem (hsub a ha)
      · intro a ha
        rcases List.mem_append.mp ha with h | h
        · exact List.mem_cons_of_mem _ (hsub a h)
        · rcases List.mem_singleton.mp h with rfl
          exact List.mem_cons_self _ _

/-! Helper lemmas about `watchLoop`, proved by induction on the delivered
events. -/

theorem watchLoop_trace_activations (b : Bool) (evs : List PodEvent) :
    ∀ st : WatchState,
      (watchLoop b evs st).1.activations
        = st.activations ++ activationsIn (watchLoop b evs st).2.2 := by
  induction evs with
  | nil => intro st; simp [watchLoop, activationsIn]
  | cons ev rest ih =>
    intro st
    simp only [watchLoop]
    split
    · simp [activationsIn_status_ite]
    · split
      · simp [activationsIn_append, activationsIn_status_ite, ih]
      · split
        · simp [activationsIn_append, activationsIn_status_ite, ih,
            ensure_activations, List.append_assoc]
        · split
          · simp [activationsIn_append, activationsIn_status_ite,
              ensure_activations]
          · split
            · simp [activationsIn_append, activationsIn_status_ite,
                ensure_activations]
            · simp [activationsIn_append, activationsIn_status_ite, ih]

theorem watchLoop_invariant (b : Bool) (evs : List PodEvent) :
    ∀ st : WatchState, st.activations.Nodup →
      (∀ a ∈ st.activations, a ∈ st.oncePerPod) →
      (watchLoop b evs st).1.activations.Nodup := by
  induction evs with
  | nil => intro st hnd _; simpa [watchLoop] using hnd
  | cons ev rest ih =>
    intro st hnd hsub
    simp only [watchLoop]
    split
    · exact hnd
    · split
      · exact ih st hnd hsub
      · split
        · exact ih _ (ensure_invariant b ev.name st hnd hsub).1
            (ensure_invariant b ev.name st hnd hsub).2
        · split
          · exact (ensure_invariant b ev.name st hnd hsub).1
          · split
            · exact (ensure_invariant b ev.name st hnd hsub).1
            · exact ih _ hnd hsub

theorem watchLoop_closeCount (b : Bool) (evs : List PodEvent) :
    ∀ st : WatchState, closeCount (watchLoop b evs st).2.2 = 0 := by
  induction evs with
  | nil => intro st; rfl
  | cons ev rest ih =>
    intro st
    simp only [watchLoop]
    split
    · simp [closeCount_status_ite]
    · split
      · simp [closeCount_append, closeCount_status_ite, ih]
      · split
        · simp [closeCount_append, closeCount_status_ite, ih, ensure_closeCount]
        · split
          · simp [closeCount_append, closeCount_status_ite, ensure_closeCount]
          · split
            · simp [closeCount_append, closeCount_status_ite, ensure_closeCount]
            · simp [closeCount_append, closeCount_status_ite, ih]

theorem watchLoop_resultsSent (b : Bool) (evs : List PodEvent) :
    ∀ st : WatchState, resultsSent (watchLoop b evs st).2.2 = [] := by
  induction evs with
  | nil => intro st; rfl
  | cons ev rest ih =>
    intro st
    simp only [watchLoop]
    split
    · simp [resultsSent_status_ite]
    · split
      · simp [resultsSent_append, resultsSent_status_ite, ih]
      · split
        · simp [resultsSent_append, resultsSent_status_ite, ih, ensure_resultsSent]
        · split
          · simp [resultsSent_append, resultsSent_status_ite, ensure_resultsSent]
          · split
            · simp [resultsSent_append, resultsSent_status_ite, ensure_resultsSent]
            · simp [resultsSent_append, resultsSent_status_ite, ih]

theorem watchLoop_success_of_exit (b : Bool) (evs : List PodEvent) :
    ∀ st : WatchState,
      (watchLoop b evs st).2.1 ≠ LoopExit.terminal →
      (watchLoop b evs st).1.success = st.success := by
  induction evs with
  | nil => intro st _; rfl
  | cons ev rest ih =>
    intro st
    simp only [watchLoop]
    split
    · intro _; rfl
    · split
      · intro hex; exact ih st hex
      · split
        · intro hex
          exact (ih _ hex).trans (ensure_success b ev.name st)
        · split
          · intro hex; exact absurd rfl hex
          · split
            · intro hex; exact absurd rfl hex
            · intro hex; exact ih _ hex

theorem watchLoop_events_absent (evs : List PodEvent) :
    ∀ st : WatchState, activationsIn (watchLoop false evs st).2.2 = [] := by
  induction evs with
  | nil => intro st; rfl
  | cons ev rest ih =>
    intro st
    simp only [watchLoop]
    split
    · rfl
    · split
      · simpa [activationsIn_append] using ih st
      · split
        · simp [activationsIn_append, ensure_events_absent, activationsIn_nil, ih]
        · split
          · simp [activationsIn_append, ensure_events_absent, activationsIn_nil]
          · split
            · simp [activationsIn_append, ensure_events_absent, activationsIn_nil]
            · simpa [activationsIn_append] using ih _

/-! Helper lemmas for the WaitGroup fan-in. -/

theorem foldl_wgDone_counter {α : Type} (l : List α) :
    ∀ c : Nat,
      (l.foldl (fun wg _ => wgDone wg) ⟨c⟩).counter = c - l.length := by
  induction l with
  | nil => intro c; rfl
  | cons x xs ih =>
    intro c
    have h : (x :: xs).foldl (fun wg _ => wgDone wg) (⟨c⟩ : WaitGroup)
        = xs.foldl (fun wg _ => wgDone wg) ⟨c - 1⟩ := rfl
    rw [h, ih (c - 1)]
    simp [Nat.sub_sub, Nat.add_comm]

theorem runSignals_counter (n : Nat) (sigs : List (Fin n)) :
    (runSignals n sigs).counter = n - sigs.length :=
  foldl_wgDone_counter sigs n

theorem runSignals_take_counter (n : Nat) (sigs : List (Fin n)) (k : Nat)
    (hlen : sigs.length = n) :
    (runSignals n (sigs.take k)).counter = n - min k n := by
  rw [runSignals_counter, List.length_take, hlen]

/-! Helper lemmas for `labelSelector`. -/

theorem labelSelector_foldl (labels : List (List Char × List Char)) :
    ∀ acc : List Char,
      labels.foldl (fun acc kv => acc ++ kv.1 ++ ['='] ++ kv.2 ++ [',']) acc
        = acc ++ (labels.map (fun kv => kv.1 ++ ['='] ++ kv.2 ++ [','])).flatten := by
  induction labels with
  | nil => intro acc; simp
  | cons x xs ih =>
    intro acc
    rw [List.foldl_cons, ih]
    simp [List.append_assoc]

theorem flatten_map_comma (pieces : List (List Char)) (hne : pieces ≠ []) :
    (pieces.map (fun p => p ++ [','])).flatten
      = List.intercalate [','] pieces ++ [','] := by
  induction pieces with
  | nil => exact absurd rfl hne
  | cons p rest ih =>
    cases rest with
    | nil => simp [List.intercalate]
    | cons q rs =>
      have h := ih (by simp)
      simp only [List.map_cons, List.flatten_cons, h, List.intercalate,
        List.intersperse_cons_cons] at h ⊢
      simp [h, List.append_assoc]

/-! Decomposition of a successful `watchJob` run. -/

theorem watchJob_trace_decomp (inp : WatchInput) (hw : inp.watchErr = none) :
    (watchJob inp).2
      = (watchLoop inp.eventsPresent inp.events initialWatchState).2.2
        ++ (if inp.eventsPresent then [Action.closeEvents] else [])
        ++ [Action.sendResult
            (watchLoop inp.eventsPresent inp.events initialWatchState).1.success
            (drainErr inp.drainWinner inp.ctxErrMsg)] ∧
    (watchJob inp).1
      = ((watchLoop inp.eventsPresent inp.events initialWatchState).1.success,
          drainErr inp.drainWinner inp.ctxErrMsg) := by
  constructor <;> simp [watchJob, hw]

theorem watchJob_activations (inp : WatchInput) (hw : inp.watchErr = none) :
    activationsIn (watchJob inp).2
      = activationsIn
          (watchLoop inp.eventsPresent inp.events initialWatchState).2.2 := by
  rw [(watchJob_trace_decomp inp hw).1, activationsIn_append, activationsIn_append]
  cases hb : inp.eventsPresent <;> simp [activationsIn]

theorem labelSelector_eq_intercalate (labels : List (List Char × List Char)) :
    labelSelector labels
      = List.intercalate [',']
          (labels.map (fun kv => kv.1 ++ ['='] ++ kv.2)) := by
  cases labels with
  | nil => rfl
  | cons x xs =>
    simp only [labelSelector]
    rw [labelSelector_foldl, List.nil_append]
    rw [show (fun (kv : List Char × List Char) => kv.1 ++ ['='] ++ kv.2 ++ [','])
        = (fun p => p ++ [',']) ∘ (fun kv => kv.1 ++ ['='] ++ kv.2) from rfl]
    rw [← List.map_map, flatten_map_comma _ (by simp)]
    rw [if_neg (by simp)]
    exact List.dropLast_concat

theorem labelSelector_single (k v : List Char) :
    labelSelector [(k, v)] = k ++ ['='] ++ v := by
  rw [labelSelector_eq_intercalate]
  simp [List.intercalate]

/-- C6: `labelSelector` maps the empty label map to the empty selector; a
single-entry map `{k: v}` to `k=v` with no trailing separator; and a map with
several entries to all `k=v` pairs (one per entry, in iteration order) joined
by `,`, with no trailing comma. -/
theorem labelSelector_format :
    labelSelector [] = [] ∧
    (∀ k v, labelSelector [(k, v)] = k ++ ['='] ++ v) ∧
    (∀ labels : List (List Char × List Char),
      labelSelector labels
        = List.intercalate [',']
            (labels.map (fun kv => kv.1 ++ ['='] ++ kv.2))) :=
  ⟨rfl, labelSelector_single, labelSelector_eq_intercalate⟩

/-- C1: for N spawned streamers, the drain signal (the close of `logsDone`)
can fire at exactly one point of any completion schedule in which each of the
N streamers signals exactly once — namely after all N completion signals,
regardless of their order — and `streamLogsForContainer` calls `wg.Done()`
exactly once on every exit path (open error, read error, or clean EOF). -/
theorem drain_signal_once (n : Nat) (sigs : List (Fin n))
    (_hnd : sigs.Nodup) (hlen : sigs.length = n) :
    drainFirings n sigs = 1 ∧
    (∀ k, k < n → drainFires (runSignals n (sigs.take k)) = false) ∧
    (∀ container inp, (streamLogsForContainer container inp).2 = 1) := by
  refine ⟨?_, ?_, ?_⟩
  · unfold drainFirings
    rw [hlen, List.range_succ, List.countP_append]
    have h0 : (List.range n).countP
        (fun k => drainFires (runSignals n (sigs.take k))) = 0 := by
      rw [List.countP_eq_zero]
      intro k hk
      have hklt := List.mem_range.mp hk
      have hc := runSignals_take_counter n sigs k hlen
      simp only [drainFires, hc, decide_eq_true_eq]
      omega
    have h1 : drainFires (runSignals n (sigs.take n)) = true := by
      have hc := runSignals_take_counter n sigs n hlen
      simp [drainFires, hc]
    rw [h0]
    simp [List.countP_cons, h1]
  · intro k hk
    have hc := runSignals_take_counter n sigs k hlen
    simp only [drainFires, hc, decide_eq_false_iff_not]
    omega
  · intro container inp
    rcases inp with ⟨o, ls, e⟩
    cases o <;> cases e <;> rfl

/-- Witness for C1: two streamers completing in reverse spawn order. -/
theorem drain_signal_once_witness :
    ([1, 0] : List (Fin 2)).Nodup ∧ drainFirings 2 [1, 0] = 1 :=
  ⟨by decide, (drain_signal_once 2 [1, 0] (by decide) (by decide)).1⟩

/-- C4 counterexample: for a pod with exactly one container named `"c"`, the
library's `startLogStreaming` (`pkg/job/job.go`) spawns the streamer with the
container's own name, and the log line it emits carries the non-empty source
label `"c"` — not the empty label the claim requires. -/
theorem single_container_line_labelled :
    startLogStreamingLabels ["c"] = ["c"] ∧
    (streamLogsForContainer "c" ⟨none, [], ReadEnd.eof "hello"⟩).1
      = [Event.logLine "c" "hello"] ∧
    "c" ≠ "" := by
  refine ⟨rfl, rfl, by decide⟩

/-- C4 amended: in the CLI (`main.go`), a pod with exactly one execution unit
is streamed with the empty container name and hence an empty line prefix,
while a pod with more than one unit gets one streamer per unit labelled with
the unit's name (prefix `name: `); in the library (`pkg/job/job.go`), every
spawned streamer is always given its container's name and every `LogLine` it
emits carries exactly that name as its source label, even when the pod has
only one container. -/
theorem log_line_source_labels (cs : List String) (c : String)
    (inp : StreamInput) :
    (cs.length = 1 → cliStartLogStreamingLabels cs = [""]) ∧
    (1 < cs.length → cliStartLogStreamingLabels cs = cs) ∧
    (∀ line, cliOutputLine "" line = line) ∧
    (0 < c.length → ∀ line, cliOutputLine c line = c ++ ": " ++ line) ∧
    startLogStreamingLabels cs = cs ∧
    (∀ lbl line,
      Event.logLine lbl line ∈ (streamLogsForContainer c inp).1 → lbl = c) := by
  refine ⟨?_, ?_, ?_, ?_, rfl, ?_⟩
  · intro h
    simp only [cliStartLogStreamingLabels, if_pos h]
  · intro h
    rw [cliStartLogStreamingLabels, if_neg (by omega)]
  · intro line
    rfl
  · intro h line
    simp only [cliOutputLine, cliPrefixText, if_pos h]
  · intro lbl line hmem
    rcases inp with ⟨o, ls, e⟩
    cases o with
    | some err => simp [streamLogsForContainer] at hmem
    | none =>
      cases e with
      | readFail msg =>
        simp only [streamLogsForContainer, List.mem_append, List.mem_map,
          List.mem_singleton, Event.logLine.injEq] at hmem
        rcases hmem with ⟨l, _, h1, _⟩ | heq
        · exact h1.symm
        · cases heq
      | eof lastChunk =>
        simp only [streamLogsForContainer, List.mem_append, List.mem_map,
          List.mem_singleton, Event.logLine.injEq] at hmem
        rcases hmem with ⟨l, _, h1, _⟩ | ⟨h1, _⟩
        · exact h1.symm
        · exact h1

/-- Witness for the amended C4 at concrete pods. -/
theorem log_line_source_labels_witness :
    cliStartLogStreamingLabels ["c"] = [""] ∧
    cliStartLogStreamingLabels ["a", "b"] = ["a", "b"] ∧
    cliOutputLine "a" "x" = "a" ++ ": " ++ "x" ∧
    startLogStreamingLabels ["a", "b"] = ["a", "b"] := by
  have h1 := log_line_source_labels ["c"] "a" ⟨none, [], ReadEnd.eof ""⟩
  have h2 := log_line_source_labels ["a", "b"] "a" ⟨none, [], ReadEnd.eof ""⟩
  exact ⟨h1.1 rfl, h2.2.1 (by decide), h2.2.2.2.1 (by decide) "x",
    h2.2.2.2.2.1⟩

/-- C2: an event repeating the immediately-preceding observed phase triggers
no action — `Running, Running, Running, Succeeded` activates log streaming
exactly once — while a non-adjacent repeat (A, B, A again) is acted upon
(here it activates streaming for a second pod, which an adjacent repeat does
not); and over any whole watch session, log-stream activation runs at most
once per pod name. -/
theorem phase_dedup_once_per_pod (inp : WatchInput) (name : String) :
    List.count name (activationsIn (watchJob inp).2) ≤ 1 ∧
    activationsIn (watchJob ⟨none,
      [⟨"p", "Running", false⟩, ⟨"p", "Running", false⟩,
       ⟨"p", "Running", false⟩, ⟨"p", "Succeeded", false⟩],
      true, DrainRace.drained, "c"⟩).2 = ["p"] ∧
    activationsIn (watchJob ⟨none,
      [⟨"p", "Running", false⟩, ⟨"p", "Pending", false⟩,
       ⟨"q", "Running", false⟩],
      true, DrainRace.drained, "c"⟩).2 = ["p", "q"] ∧
    activationsIn (watchJob ⟨none,
      [⟨"p", "Running", false⟩, ⟨"q", "Running", false⟩],
      true, DrainRace.drained, "c"⟩).2 = ["p"] := by
  refine ⟨?_, by decide, by decide, by decide⟩
  cases hw : inp.watchErr with
  | some e =>
    simp [watchJob, hw, activationsIn]
  | none =>
    have hnd := watchLoop_invariant inp.eventsPresent inp.events
      initialWatchState List.nodup_nil (by intro a ha; cases ha)
    have htr := watchLoop_trace_activations inp.eventsPresent inp.events
      initialWatchState
    rw [watchJob_activations inp hw]
    have heq : activationsIn
        (watchLoop inp.eventsPresent inp.events initialWatchState).2.2
        = (watchLoop inp.eventsPresent inp.events initialWatchState).1.activations := by
      rw [htr]
      rfl
    rw [heq]
    exact List.nodup_iff_count_le_one.mp hnd name

/-- C3: when the 10-second drain timer wins the end-of-session race, the
watch session still returns a result whose success value is the one the
terminal phase decided (true for `Succeeded`, false for `Failed`), together
with the drain-timeout diagnostic error. -/
theorem drain_timeout_keeps_decided_success (inp : WatchInput)
    (hw : inp.watchErr = none) (ht : inp.drainWinner = DrainRace.timeout) :
    (watchJob inp).1
      = ((watchLoop inp.eventsPresent inp.events initialWatchState).1.success,
          some "timeout waiting for end of logs") ∧
    (watchJob ⟨none, [⟨"p", "Succeeded", false⟩], true,
        DrainRace.timeout, "c"⟩).1
      = (true, some "timeout waiting for end of logs") ∧
    (watchJob ⟨none, [⟨"p", "Failed", false⟩], true,
        DrainRace.timeout, "c"⟩).1
      = (false, some "timeout waiting for end of logs") := by
  refine ⟨?_, by decide, by decide⟩
  rw [(watchJob_trace_decomp inp hw).2, ht]
  rfl

/-- Witness for C3: a pod that succeeded but whose logs outlive the timer. -/
theorem drain_timeout_keeps_decided_success_witness :
    (watchJob ⟨none, [⟨"p", "Succeeded", false⟩], true,
        DrainRace.timeout, "c"⟩).1
      = ((watchLoop true [⟨"p", "Succeeded", false⟩] initialWatchState).1.success,
          some "timeout waiting for end of logs") :=
  (drain_timeout_keeps_decided_success
    ⟨none, [⟨"p", "Succeeded", false⟩], true, DrainRace.timeout, "c"⟩
    rfl rfl).1

/-- C5: if the context is cancelled before any terminal phase is observed,
`RunJob` returns success `false` with the cancellation error (the top-level
race picks `ctx.Done()`), and the same `(false, cancellation error)` result is
produced through the watcher itself when the loop is cut short by the context
and cancellation wins the drain race — neither outcome requires the drain
signal to have fired. -/
theorem cancelled_before_terminal (ctxErrMsg : String) (inp : WatchInput)
    (hw : inp.watchErr = none)
    (hexit : (watchLoop inp.eventsPresent inp.events initialWatchState).2.1
      = LoopExit.ctxDone)
    (hwin : inp.drainWinner = DrainRace.cancelled) :
    runJob none TopRace.ctxDone ctxErrMsg inp = (false, some ctxErrMsg) ∧
    (watchJob inp).1 = (false, some inp.ctxErrMsg) := by
  refine ⟨rfl, ?_⟩
  rw [(watchJob_trace_decomp inp hw).2, hwin]
  have hs := watchLoop_success_of_exit inp.eventsPresent inp.events
    initialWatchState (by rw [hexit]; intro h; cases h)
  rw [hs]
  rfl

/-- Witness for C5: cancellation observed while the pod is still pending. -/
theorem cancelled_before_terminal_witness :
    runJob none TopRace.ctxDone "context canceled"
        ⟨none, [⟨"p", "Pending", true⟩], true, DrainRace.cancelled,
          "context canceled"⟩
      = (false, some "context canceled") :=
  (cancelled_before_terminal "context canceled"
    ⟨none, [⟨"p", "Pending", true⟩], true, DrainRace.cancelled,
      "context canceled"⟩
    rfl (by decide) rfl).1

/-- C7: observing `Succeeded` directly after `Pending` — `Running` never
individually observed — still activates log streaming exactly once for that
pod before the success outcome is finalized; whatever is delivered afterwards
is not processed. -/
theorem succeeded_without_running (p : String) (rest : List PodEvent)
    (w : DrainRace) (m : String) :
    activationsIn (watchJob ⟨none,
      ⟨p, "Pending", false⟩ :: ⟨p, "Succeeded", false⟩ :: rest,
      true, w, m⟩).2 = [p] ∧
    (watchJob ⟨none,
      ⟨p, "Pending", false⟩ :: ⟨p, "Succeeded", false⟩ :: rest,
      true, w, m⟩).1.1 = true := by
  constructor
  · rw [watchJob_activations _ rfl]
    simp [watchLoop, ensureLogStreaming, initialWatchState, podRunning,
      podSucceeded, podFailed, activationsIn]
  · rw [(watchJob_trace_decomp _ rfl).2]
    simp [watchLoop, ensureLogStreaming, initialWatchState, podRunning,
      podSucceeded, podFailed]

/-- C8: if opening the pod watch fails, `watchJob` immediately sends a
result with success `false` and the subscription error, attempts no log
streaming, and sends nothing else. -/
theorem subscription_error_fatal (inp : WatchInput) (e : String)
    (hw : inp.watchErr = some e) :
    (watchJob inp).1 = (false, some ("unable to watch: " ++ e)) ∧
    activationsIn (watchJob inp).2 = [] ∧
    resultsSent (watchJob inp).2
      = [(false, some ("unable to watch: " ++ e))] := by
  refine ⟨?_, ?_, ?_⟩ <;> simp [watchJob, hw, activationsIn, resultsSent]

/-- Witness for C8 at a concrete subscription failure. -/
theorem subscription_error_fatal_witness :
    (watchJob ⟨some "boom", [], true, DrainRace.drained, "c"⟩).1
      = (false, some ("unable to watch: " ++ "boom")) :=
  (subscription_error_fatal ⟨some "boom", [], true, DrainRace.drained, "c"⟩
    "boom" rfl).1

/-- C9 counterexample: with an events sink attached (`eventsPresent = true`)
but the subscription open failing, `watchJob` delivers its result without
ever closing the sink — the sink is closed zero times, not exactly once. -/
theorem close_skipped_on_subscription_error :
    (WatchInput.mk (some "boom") [] true DrainRace.drained "c").eventsPresent
      = true ∧
    closeCount (watchJob (WatchInput.mk (some "boom") [] true
      DrainRace.drained "c")).2 = 0 ∧
    ¬ closeCount (watchJob (WatchInput.mk (some "boom") [] true
      DrainRace.drained "c")).2 = 1 :=
  ⟨rfl, rfl, by decide⟩

/-- C9 amended: when an events sink is provided and the subscription opens
successfully, the sink is closed exactly once, after the `(success, error)`
pair is determined and immediately before the result is sent (nothing is
emitted between the close and the send), and exactly one result is sent per
session; when the subscription open fails, the result is sent without the
sink ever being closed. -/
theorem close_once_before_result (inp : WatchInput)
    (he : inp.eventsPresent = true) (hw : inp.watchErr = none) :
    closeCount (watchJob inp).2 = 1 ∧
    (∃ pre, (watchJob inp).2
        = pre ++ [Action.closeEvents,
            Action.sendResult (watchJob inp).1.1 (watchJob inp).1.2]
      ∧ closeCount pre = 0) ∧
    resultsSent (watchJob inp).2 = [(watchJob inp).1] ∧
    (∀ inp' : WatchInput, inp'.watchErr ≠ none →
      closeCount (watchJob inp').2 = 0) := by
  have hd := (watchJob_trace_decomp inp hw).1
  have hres := (watchJob_trace_decomp inp hw).2
  refine ⟨?_, ?_, ?_, ?_⟩
  · rw [hd, he, if_pos rfl, closeCount_append, closeCount_append,
      watchLoop_closeCount]
    rfl
  · refine ⟨(watchLoop inp.eventsPresent inp.events initialWatchState).2.2,
      ?_, watchLoop_closeCount _ _ _⟩
    rw [hd, hres, he]
    simp [List.append_assoc]
  · rw [hd, hres, he, if_pos rfl, resultsSent_append, resultsSent_append,
      watchLoop_resultsSent]
    rfl
  · intro inp' hw'
    cases hv : inp'.watchErr with
    | none => exact absurd hv hw'
    | some e' => simp [watchJob, hv, closeCount]

/-- Witness for the amended C9 at a concrete successful session. -/
theorem close_once_before_result_witness :
    closeCount (watchJob ⟨none, [⟨"p", "Succeeded", false⟩], true,
      DrainRace.drained, "c"⟩).2 = 1 :=
  (close_once_before_result
    ⟨none, [⟨"p", "Succeeded", false⟩], true, DrainRace.drained, "c"⟩
    rfl rfl).1

/-- C10: with no events channel, log streaming is never started for any pod,
so the drain signal can never fire (a drain-race winner of `drained` would
require a non-empty activation set); when the timer wins instead, the session
returns the success value decided by the loop together with the non-nil
drain-timeout error — even for a workload that succeeded, as the concrete
instance shows. -/
theorem nil_events_drain_timeout (inp : WatchInput)
    (he : inp.eventsPresent = false) (hw : inp.watchErr = none) :
    activationsIn (watchJob inp).2 = [] ∧
    ((inp.drainWinner = DrainRace.drained →
        activationsIn (watchJob inp).2 ≠ []) →
      inp.drainWinner ≠ DrainRace.drained) ∧
    (inp.drainWinner = DrainRace.timeout →
      (watchJob inp).1
        = ((watchLoop inp.eventsPresent inp.events initialWatchState).1.success,
            some "timeout waiting for end of logs")) ∧
    (watchJob ⟨none, [⟨"p", "Succeeded", false⟩], false,
        DrainRace.timeout, "c"⟩).1
      = (true, some "timeout waiting for end of logs") := by
  have hact : activationsIn (watchJob inp).2 = [] := by
    rw [watchJob_activations inp hw, he]
    exact watchLoop_events_absent inp.events initialWatchState
  refine ⟨hact, ?_, ?_, by decide⟩
  · intro himp hdrained
    exact (himp hdrained) hact
  · intro ht
    rw [(watchJob_trace_decomp inp hw).2, ht]
    rfl

/-- Witness for C10: a succeeded workload with no events channel. -/
theorem nil_events_drain_timeout_witness :
    activationsIn (watchJob ⟨none, [⟨"p", "Succeeded", false⟩], false,
      DrainRace.timeout, "c"⟩).2 = [] :=
  (nil_events_drain_timeout
    ⟨none, [⟨"p", "Succeeded", false⟩], false, DrainRace.timeout, "c"⟩
    rfl rfl).1

end KubeJob
